import Mathlib

set_option linter.unusedVariables false
set_option maxHeartbeats 1000000

/-!
Shallow embedding of the DevAgent coding-agent runtime and proofs about its
specification. Pure data and control flow are translated directly from the
Python sources; external effects (model backends, the filesystem, the process
runner, JSON serialization) are abstracted as function parameters so that the
embedded control logic is exactly the logic of the source.
-/

/-- A role-tagged chat message, mirroring the Python dicts with keys role and
content used throughout graph.py and nodes.py. -/
structure Msg where
  role : String
  content : String
deriving Repr, DecidableEq

/-- The tool discriminant of RouterAction (schema.py, a Literal of the five
tool names). -/
inductive RTool
  | shell
  | fs_read
  | fs_write
  | done
  | scaffold
deriving Repr, DecidableEq

/-- RouterArgs (schema.py): deliberate optional superset of all per-tool
argument fields. -/
structure RouterArgs where
  command : Option String := none
  path : Option String := none
  content : Option String := none
  reason : Option String := none
  recipe_id : Option String := none
  name : Option String := none
deriving Repr, DecidableEq

/-- RouterAction (schema.py): one chosen tool plus the argument bag. -/
structure RouterAction where
  tool : RTool
  args : RouterArgs
deriving Repr, DecidableEq

/-- A tool-result mapping. Python returns heterogeneous dicts; this structure
is the superset of every key the sources read or write, each optional, with
none standing for an absent key. -/
structure ToolResult where
  ok : Option Bool := none
  done : Option Bool := none
  reason : Option String := none
  error : Option String := none
  exit_code : Option Int := none
  stdout : Option String := none
  stderr : Option String := none
  path : Option String := none
  content : Option String := none
  bytes : Option Nat := none
  command : Option String := none
  recipe_id : Option String := none
  project_name : Option String := none
  project_path : Option String := none
deriving Repr, DecidableEq

/-- State (schema.py): the single agent state threaded through the graph. -/
structure State where
  messages : List Msg := []
  actions_taken : List String := []
  last_result : Option ToolResult := none
  tool_result : Option ToolResult := none
  done : Bool := false
  reason : Option String := none
  task : String
  pending_action : Option RouterAction := none
deriving Repr, DecidableEq

namespace LlmWrappers

/-- Outcome of a model-client call: the answer, a RateLimitExceeded error, or
any other exception (carried as its message). -/
inductive CallResult (α : Type) where
  | ok (a : α)
  | rateLimitExceeded (msg : String)
  | err (msg : String)
deriving Repr, DecidableEq

/-- Whether a call outcome is the distinguishable rate-limit error. -/
def CallResult.isRateLimited {α : Type} : CallResult α → Bool
  | CallResult.rateLimitExceeded _ => true
  | _ => false

/-- The eviction loop at the top of RateLimitedLLM.invoke: pop timestamps
strictly older than 60 seconds from the front of the time-ordered deque
(while ts and now - ts[0] > 60: popleft). Time is modelled in Nat seconds. -/
def evictOld (now : Nat) (ts : List Nat) : List Nat :=
  ts.dropWhile (fun t => 60 < now - t)

/-- RateLimitedLLM.invoke (llm_wrappers.py): evict old stamps, then fail fast
with RateLimitExceeded if rpm or more stamps remain, else record now and
forward the call to the wrapped backend. Returns the outcome together with
the timestamp window as left by the call. -/
def rateLimitedInvoke {α β : Type} (impl : α → β) (rpm : Nat)
    (ts : List Nat) (now : Nat) (payload : α) : CallResult β × List Nat :=
  let ts2 := evictOld now ts
  if rpm ≤ ts2.length then
    (CallResult.rateLimitExceeded "exceeded rpm", ts2)
  else
    (CallResult.ok (impl payload), ts2 ++ [now])

/-- StructuredRateLimitedWrapper.invoke (llm_wrappers.py): the same sliding
window discipline, performed on the shared timestamp deque of the underlying
RateLimitedLLM, forwarding to the structured-output backend instead. -/
def structuredRateLimitedInvoke {α β : Type} (structuredImpl : α → β) (rpm : Nat)
    (ts : List Nat) (now : Nat) (payload : α) : CallResult β × List Nat :=
  let ts2 := ts.dropWhile (fun t => 60 < now - t)
  if rpm ≤ ts2.length then
    (CallResult.rateLimitExceeded "Rate limit exceeded", ts2)
  else
    (CallResult.ok (structuredImpl payload), ts2 ++ [now])

/-- One admission step of the rate limiter, keeping only whether the call was
admitted and the resulting window (the forwarded value plays no role). -/
def stepWindow (rpm : Nat) (now : Nat) (ts : List Nat) : Bool × List Nat :=
  let r := rateLimitedInvoke (fun _ : Unit => ()) rpm ts now ()
  (match r.1 with
   | CallResult.ok _ => true
   | _ => false, r.2)

/-- A sequence of calls against one rate-limited client at the given times,
returning the admission flag of each call and the final window. -/
def runCalls (rpm : Nat) : List Nat → List Nat → List Bool × List Nat
  | [], w => ([], w)
  | t :: rest, w =>
    let s := stepWindow rpm t w
    let r := runCalls rpm rest s.2
    (s.1 :: r.1, r.2)

/-- The shared loop body of FailoverLLM.invoke and
StructuredFailoverWrapper.invoke: try each backend in order, remembering the
most recent RateLimitExceeded; any other error propagates at once; after the
loop, re-raise the last rate-limit error, or the configured empty-list error
when no backend was ever tried. -/
def failoverAux {α β : Type} (payload : α) (emptyMsg : String) :
    List (α → CallResult β) → Option String → CallResult β
  | [], last =>
    match last with
    | some m => CallResult.rateLimitExceeded m
    | none => CallResult.err emptyMsg
  | b :: bs, last =>
    match b payload with
    | CallResult.ok v => CallResult.ok v
    | CallResult.rateLimitExceeded m => failoverAux payload emptyMsg bs (some m)
    | CallResult.err m => CallResult.err m

/-- FailoverLLM.invoke (llm_wrappers.py). -/
def failoverInvoke {α β : Type} (backends : List (α → CallResult β))
    (payload : α) : CallResult β :=
  failoverAux payload "No backends configured" backends none

/-- StructuredFailoverWrapper.invoke (llm_wrappers.py), over the structured
wrappers of the backends. -/
def structuredFailoverInvoke {α β : Type}
    (structuredBackends : List (α → CallResult β)) (payload : α) : CallResult β :=
  failoverAux payload "No structured backends available" structuredBackends none

end LlmWrappers

namespace FsTool

/-- Boolean prefix test on character lists (the string startswith used by
FsTool._resolve). -/
def strPre : List Char → List Char → Bool
  | [], _ => true
  | _ :: _, [] => false
  | a :: as, b :: bs => a = b && strPre as bs

/-- Split a character list on the slash separator. -/
def splitSlash : List Char → List (List Char)
  | [] => [[]]
  | c :: rest =>
    let r := splitSlash rest
    if c = '/' then [] :: r
    else
      match r with
      | a :: tl => (c :: a) :: tl
      | [] => [[c]]

/-- The components of a POSIX path string, empty segments dropped. -/
def segsOf (s : List Char) : List (List Char) :=
  (splitSlash s).filter (fun x => x ≠ [])

/-- Canonicalization of an absolute path the way Path.resolve does on the
component level: a dot segment disappears, a dot-dot segment pops the previous
component and is a no-op at the root. The accumulator holds the components
seen so far in reverse. (Symlinks are outside the model.) -/
def canon : List (List Char) → List (List Char) → List (List Char)
  | acc, [] => acc.reverse
  | acc, seg :: rest =>
    if seg = ['.'] then canon acc rest
    else if seg = ['.', '.'] then canon acc.tail rest
    else canon (seg :: acc) rest

/-- Render canonical components back to an absolute path string; the empty
component list is the filesystem root. -/
def renderSegs : List (List Char) → List Char
  | [] => ['/']
  | cs => cs.foldl (fun acc seg => acc ++ '/' :: seg) []

/-- Path resolution of FsTool._resolve (fs.py): a relative path is joined
under the base directory, an absolute path stands alone; either way the
result is canonicalized. The base directory is the already-resolved
self.base_dir. -/
def resolveChars (base p : List Char) : List Char :=
  if strPre ['/'] p then renderSegs (canon [] (segsOf p))
  else renderSegs (canon [] (segsOf base ++ segsOf p))

/-- String-level wrapper of resolveChars. -/
def resolvePath (base p : String) : String :=
  String.mk (resolveChars base.data p.data)

/-- FsTool._resolve (fs.py): resolve, then require str(allowed_root) to be a
string prefix of the resolved path, else raise ValueError. -/
def resolve (base root p : String) : Except String String :=
  let full := resolvePath base p
  if strPre root.data full.data then Except.ok full
  else Except.error "path not allowed outside allowed_root"

/-- The last n characters of a string (the Python tail slice). -/
def pyTail (n : Nat) (s : String) : String :=
  String.mk (s.data.drop (s.data.length - n))

/-- FsTool.read (fs.py): resolve the path (a ValueError is caught and reported
in the result mapping), then read UTF-8 text through the abstracted
filesystem fsys, tail-truncated to 12000 characters; I/O errors are likewise
reported in the mapping. -/
def read (fsys : String → Except String String) (base root p : String) :
    ToolResult :=
  match resolve base root p with
  | Except.error e => { ok := some false, error := some e, path := some p }
  | Except.ok full =>
    match fsys full with
    | Except.ok text =>
      { ok := some true, path := some full, content := some (pyTail 12000 text) }
    | Except.error e => { ok := some false, error := some e, path := some p }

/-- FsTool.write (fs.py): resolve then write UTF-8 text, returning the byte
count. The performed filesystem effect is returned alongside the result
mapping: none when resolution fails (no I/O occurs), the written path and
content otherwise. -/
def write (base root p content : String) :
    ToolResult × Option (String × String) :=
  match resolve base root p with
  | Except.error e =>
    ({ ok := some false, error := some e, path := some p }, none)
  | Except.ok full =>
    ({ ok := some true, path := some full, bytes := some content.utf8ByteSize },
      some (full, content))

end FsTool

namespace Deny

/-- A regex word character as used by the word-boundary assertions of the
deny patterns. -/
def isWordChar (c : Char) : Bool :=
  c.isAlphanum || c = '_'

/-- A whitespace character as matched by the regex class and stripped by
str.strip (space, tab, newline, carriage return, vertical tab, form feed). -/
def isSpaceChar (c : Char) : Bool :=
  c = ' ' || c = '\t' || c = '\n' || c = '\r' || c = '\x0b' || c = '\x0c'

/-- The token alphabet needed by the deny patterns of llm/tools.py: literal
characters, one-or-more whitespace, and the word-boundary assertion. -/
inductive Tok
  | lit (c : Char)
  | ws1
  | wb
deriving Repr, DecidableEq

/-- Whether an optional adjacent character counts as a word character; the
edge of the string counts as non-word. -/
def wordOpt : Option Char → Bool
  | none => false
  | some c => isWordChar c

/-- Match a token sequence at the current position, given the character just
before the position (for word boundaries). One-or-more whitespace backtracks
through both continuations. Structural recursion on a fuel bound that
dominates the tokens-plus-input measure, so that the function reduces; with
fuel at least tokens plus input plus one the fuel never runs out. -/
def matchToksF : Nat → List Tok → Option Char → List Char → Bool
  | 0, _, _, _ => false
  | fuel + 1, toks, prev, s =>
    match toks, s with
    | [], _ => true
    | Tok.lit c :: ts, x :: xs => x = c && matchToksF fuel ts (some x) xs
    | Tok.lit _ :: _, [] => false
    | Tok.ws1 :: ts, x :: xs =>
      isSpaceChar x &&
        (matchToksF fuel ts (some x) xs ||
          matchToksF fuel (Tok.ws1 :: ts) (some x) xs)
    | Tok.ws1 :: _, [] => false
    | Tok.wb :: ts, xs =>
      (wordOpt prev != wordOpt xs.head?) && matchToksF fuel ts prev xs

/-- Token matching with enough fuel for the whole pattern and input. -/
def matchToks (ts : List Tok) (prev : Option Char) (s : List Char) : Bool :=
  matchToksF (ts.length + s.length + 1) ts prev s

/-- Unanchored search: try a match at every position of the string. -/
def searchFrom (ts : List Tok) : Option Char → List Char → Bool
  | prev, [] => matchToks ts prev []
  | prev, x :: xs => matchToks ts prev (x :: xs) || searchFrom ts (some x) xs

/-- Literal tokens of a string. -/
def lits (s : String) : List Tok :=
  s.data.map Tok.lit

/-- The _DENY_PATTERNS of llm/tools.py, compiled to token sequences; a pattern
with alternation contributes one sequence per alternative. Patterns are
matched case-insensitively, so literals are given lowercased. -/
def denyAlternatives : List (List Tok) :=
  [ [Tok.wb] ++ lits "rm" ++ [Tok.ws1] ++ lits "-rf" ++ [Tok.wb],
    [Tok.wb] ++ lits "mkfs" ++ [Tok.wb],
    [Tok.wb] ++ lits "dd" ++ [Tok.ws1] ++ lits "if=",
    [Tok.wb] ++ lits "chmod" ++ [Tok.ws1] ++ lits "777" ++ [Tok.wb],
    [Tok.wb] ++ lits "chown" ++ [Tok.ws1] ++ lits "-r" ++ [Tok.wb],
    [Tok.wb] ++ lits "mount" ++ [Tok.wb],
    [Tok.wb] ++ lits "ssh" ++ [Tok.wb],
    lits "/etc" ++ [Tok.wb],
    lits "/root" ++ [Tok.wb],
    [Tok.wb] ++ lits "adduser" ++ [Tok.wb],
    [Tok.wb] ++ lits "useradd" ++ [Tok.wb],
    [Tok.wb] ++ lits "deluser" ++ [Tok.wb],
    [Tok.wb] ++ lits "userdel" ++ [Tok.wb],
    lits ":()\x7b:|:&\x7d;:",
    [Tok.wb] ++ lits "curl" ++ [Tok.ws1] ++ lits "http",
    [Tok.wb] ++ lits "wget" ++ [Tok.ws1] ++ lits "http" ]

/-- str.strip on a character list: drop whitespace at both ends. -/
def pyStrip (s : List Char) : List Char :=
  ((s.dropWhile isSpaceChar).reverse.dropWhile isSpaceChar).reverse

/-- ASCII lowercasing of one character, the effect of Python str.lower on the
command text (the sources compare case-insensitively, so the input is
lowercased and the patterns carry lowercase literals). -/
def asciiLower (c : Char) : Char :=
  if c.isUpper then Char.ofNat (c.toNat + 32) else c

/-- is_risky_command (llm/tools.py): strip the command, then search it against
every deny pattern, case-insensitively. -/
def is_risky_command (cmd : String) : Bool :=
  let s := (pyStrip cmd.data).map asciiLower
  denyAlternatives.any (fun ts => searchFrom ts none s)

/-- The blocked-by-policy result of shell_tool (llm/tools.py). -/
def blockedResult (cmd : String) : ToolResult :=
  { ok := some false, exit_code := some 126,
    stderr := some "blocked by policy: risky command", command := some cmd }

/-- shell_tool (llm/tools.py): a risky command short-circuits with the policy
violation result; otherwise the command is forwarded to the executor
env.shell.run, abstracted as the function run. -/
def shell_tool (run : String → ToolResult) (command : String) : ToolResult :=
  if is_risky_command command then blockedResult command
  else run command

end Deny

namespace Scaffold

/-- The character class kept by the sanitizing regex of
ScaffoldTool._sanitize_name: ASCII alphanumerics, hyphen, underscore. -/
def isAllowedChar (c : Char) : Bool :=
  c.isAlphanum || c = '-' || c = '_'

/-- ASCII lowercasing as performed by str.lower at the end of
_sanitize_name. Only ASCII letters can reach this step, because every other
character was already replaced by a hyphen, so the explicit letter table is
extensionally the Python behaviour there. -/
def pyLowerChar : Char → Char
  | 'A' => 'a'
  | 'B' => 'b'
  | 'C' => 'c'
  | 'D' => 'd'
  | 'E' => 'e'
  | 'F' => 'f'
  | 'G' => 'g'
  | 'H' => 'h'
  | 'I' => 'i'
  | 'J' => 'j'
  | 'K' => 'k'
  | 'L' => 'l'
  | 'M' => 'm'
  | 'N' => 'n'
  | 'O' => 'o'
  | 'P' => 'p'
  | 'Q' => 'q'
  | 'R' => 'r'
  | 'S' => 's'
  | 'T' => 't'
  | 'U' => 'u'
  | 'V' => 'v'
  | 'W' => 'w'
  | 'X' => 'x'
  | 'Y' => 'y'
  | 'Z' => 'z'
  | c => c

/-- First substitution of _sanitize_name (scaffold.py): every character
outside the allowed class becomes a hyphen. -/
def sanitizeStep1 (s : List Char) : List Char :=
  s.map (fun c => if isAllowedChar c then c else '-')

/-- Second substitution of _sanitize_name: collapse each run of hyphens to a
single hyphen. -/
def collapseHyphens : List Char → List Char
  | [] => []
  | c :: rest =>
    let r := collapseHyphens rest
    if c = '-' then
      match r with
      | '-' :: _ => r
      | _ => c :: r
    else c :: r

/-- str.strip of the hyphen character: drop hyphens at both ends. -/
def stripHyphens (s : List Char) : List Char :=
  ((s.dropWhile (fun c => c = '-')).reverse.dropWhile (fun c => c = '-')).reverse

/-- ScaffoldTool._sanitize_name (scaffold.py): substitute, collapse, strip,
lowercase, and fall back to the fixed name when nothing remains. -/
def sanitize_name (name : String) : String :=
  let s := stripHyphens (collapseHyphens (sanitizeStep1 name.data))
  let lowered := String.mk (s.map pyLowerChar)
  if lowered = "" then "my-app" else lowered

/-- Joining self.cwd with a project name, as the Path division does. -/
def joinPath (cwd name : String) : String :=
  cwd ++ "/" ++ name

/-- The while loop of ScaffoldTool._resolve_name_collision, unrolled on a
fuel bound (the source loop is unbounded; every terminating run of it is a
run of this function for fuel large enough). The existence test ex stands for
(self.cwd / name).exists(). -/
def resolveCollision (ex : String → Bool) (cwd : String) :
    Nat → Nat → String → String → String
  | 0, _, _, name => name
  | fuel + 1, counter, baseName, name =>
    if ex (joinPath cwd name) then
      resolveCollision ex cwd fuel (counter + 1) baseName
        (baseName ++ "-" ++ toString counter)
    else name

/-- ScaffoldTool._resolve_name_collision (scaffold.py): suffix -1, -2, and so
on until the target directory does not exist. -/
def _resolve_name_collision (ex : String → Bool) (cwd : String) (fuel : Nat)
    (name : String) : String :=
  resolveCollision ex cwd fuel 1 name name

/-- The name-defaulting at the top of ScaffoldTool.create: a missing or empty
requested name becomes the fixed fallback before sanitizing. -/
def defaultedName : Option String → String
  | none => "my-app"
  | some s => if s = "" then "my-app" else s

/-- The complete name pipeline of ScaffoldTool.create: default, sanitize,
resolve collisions against the pre-command filesystem. -/
def finalProjectName (exBefore : String → Bool) (cwd : String) (fuel : Nat)
    (name : Option String) : String :=
  _resolve_name_collision exBefore cwd fuel (sanitize_name (defaultedName name))

/-- ScaffoldTool.create (scaffold.py). The recipe registry maps a recipe id
to its command template, modelled as the rendering function name to command
(the registry itself is data from recipes.json, outside the sources).
exBefore is directory existence while names are resolved, exAfter is
directory existence after the scaffold command ran; shellRun abstracts
self.shell.run. -/
def create (recipes : List (String × (String → String)))
    (shellRun : String → ToolResult) (exBefore exAfter : String → Bool)
    (cwd : String) (fuel : Nat) (recipe_id : String) (name : Option String) :
    ToolResult :=
  match recipes.lookup recipe_id with
  | none =>
    { ok := some false, error := some ("Recipe " ++ recipe_id ++ " not found") }
  | some tmpl =>
    let nm := finalProjectName exBefore cwd fuel name
    let command := tmpl nm
    let result := shellRun command
    if result.ok = some true then
      let project_path := joinPath cwd nm
      if exAfter project_path then
        { ok := some true, recipe_id := some recipe_id, project_name := some nm,
          project_path := some project_path, command := some command,
          stdout := result.stdout, stderr := result.stderr,
          reason := some ("Scaffolded " ++ recipe_id ++ " project " ++ nm ++
            " successfully") }
      else
        { ok := some false, recipe_id := some recipe_id,
          project_name := some nm, command := some command,
          stdout := result.stdout, stderr := result.stderr,
          error := some "scaffold command finished but project directory missing" }
    else
      { ok := some false, error := some "Scaffold command failed",
        command := some command, exit_code := result.exit_code,
        stdout := result.stdout, stderr := result.stderr }

/-- dict.setdefault for the done key. -/
def setdefaultDone (r : ToolResult) : ToolResult :=
  match r.done with
  | none => { r with done := some true }
  | some _ => r

/-- dict.setdefault for the reason key. -/
def setdefaultReason (r : ToolResult) (msg : String) : ToolResult :=
  match r.reason with
  | none => { r with reason := some msg }
  | some _ => r

/-- scaffold_tool (llm/tools.py): run ScaffoldTool.create and, on success,
surface the completion hint by defaulting done to true and reason to a
human-readable message. -/
def scaffold_tool (recipes : List (String × (String → String)))
    (shellRun : String → ToolResult) (exBefore exAfter : String → Bool)
    (cwd : String) (fuel : Nat) (recipe_id : String) (name : Option String) :
    ToolResult :=
  let res := create recipes shellRun exBefore exAfter cwd fuel recipe_id name
  if res.ok = some true then
    setdefaultReason (setdefaultDone res)
      ("Project scaffolded: " ++ res.project_name.getD (name.getD "None") ++
        " (" ++ recipe_id ++ ")")
  else res

end Scaffold

namespace GraphAgent

/-- SYSTEM_TEXT (graph.py and nodes.py): the fixed system instruction
enumerating the five tools and the safety constraints. -/
def SYSTEM_TEXT : String :=
  "You are a precise coding agent.\nReturn only tool selections as structured output.\nTools available: shell, fs_read, fs_write, scaffold, done.\nUse \x27scaffold\x27 with recipe_id \x27react-vite-js\x27 to create React projects.\nNever suggest risky shell commands; keep to the job workspace.\n"

/-- The system message built from SYSTEM_TEXT. -/
def systemMsg : Msg :=
  { role := "system", content := SYSTEM_TEXT }

/-- The message sequence decide_action in graph.py actually sends: the
ChatPromptTemplate of a system message and one human message rendered from
state.task. -/
def decideActionPayload (s : State) : List Msg :=
  [systemMsg, { role := "human", content := s.task }]

/-- decide_action as wired in build_graph (graph.py): invoke the structured
model on the prompt and store the decision as pending_action. The structured
Failover Model Client is abstracted as the function model. -/
def decide_action (model : List Msg → RouterAction) (s : State) : State :=
  { s with pending_action := some (model (decideActionPayload s)) }

/-- The conversation decide_action in nodes.py sends: the system instruction
followed by the full messages sequence of the state. -/
def nodesDecidePayload (s : State) : List Msg :=
  systemMsg :: s.messages

/-- decide_action (nodes.py): invoke the structured model on the system
instruction plus the full history and store the decision as pending_action.
This variant is not wired into the compiled graph. -/
def nodesDecideAction (model : List Msg → RouterAction) (s : State) : State :=
  { s with pending_action := some (model (nodesDecidePayload s)) }

/-- _safe_json_fragment (graph.py) and safe_json_fragment (helpers.py):
serialize and cap at 20000 characters; the JSON dump itself is abstracted as
the function dump. -/
def safe_json_fragment {α : Type} (dump : α → String) (x : α) : String :=
  String.mk ((dump x).data.take 20000)

/-- Truthiness of the done key of a result mapping (absent counts false). -/
def truthyDone (r : ToolResult) : Bool :=
  r.done.getD false

/-- record_result (graph.py, identically nodes.py): append the serialized
decision as an assistant message and the serialized result as a tool message,
log the decision in actions_taken, retain the result as last_result, clear
the transient fields, and mark completion exactly when the tool was the done
tool or the result carries a truthy done flag, copying the reason. The source
asserts pending_action is present; the none branch is unreachable in the
graph. -/
def record_result (dumpAction : RouterAction → String)
    (dumpResult : ToolResult → String) (s : State) : State :=
  match s.pending_action with
  | none => s
  | some action =>
    let result := s.tool_result.getD {}
    let action_json := safe_json_fragment dumpAction action
    let messages := s.messages ++
      [{ role := "assistant", content := action_json },
       { role := "tool", content := safe_json_fragment dumpResult result }]
    let base : State :=
      { s with
        messages := messages,
        actions_taken := s.actions_taken ++ [action_json],
        last_result := some result,
        pending_action := none,
        tool_result := none }
    if action.tool = RTool.done || truthyDone result then
      { base with done := true, reason := result.reason }
    else base

/-- The termination condition _should_end of build_graph (graph.py): the run
ends exactly when state.done holds. -/
def _should_end (s : State) : Bool :=
  s.done

end GraphAgent

namespace AgentBrain

/-- SYSTEM_PROMPT (main.py). -/
def SYSTEM_PROMPT : String :=
  "You are an autonomous software-building agent.\nYou have access to tools for running shell commands, writing files, and reading files.\n\nYour task: build a working React \"todo app\" inside the container.\n\nConstraints:\n- Always respond with a single JSON object.\n- Do NOT include explanations or code fences.\n- Valid tools: [\"shell\", \"fs_write\", \"fs_read\", \"done\"].\n- Use `shell` for commands like npm, git, or bash commands.\n- Use `fs_write` to create or edit source files.\n- Use `fs_read` to inspect existing files.\n- When you are confident the app is scaffolded and built, use `done`.\n\nExamples:\n\nUSER: Build me a todo app in React\nASSISTANT:\n\x7b\"tool\": \"shell\", \"args\": \x7b\"command\": \"npm create vite@latest todo-app -- --template react\"\x7d\x7d\n\nUSER: npm create vite failed: vite: not found\nASSISTANT:\n\x7b\"tool\": \"shell\", \"args\": \x7b\"command\": \"npm install -g create-vite && npm create vite@latest todo-app -- --template react\"\x7d\x7d\n"

/-- The decision dict parsed from the model text in AgentBrain._ask_llm: a
tool name (possibly absent or unknown) and an argument bag. -/
structure BrainAction where
  tool : Option String := none
  args : RouterArgs := {}
deriving Repr, DecidableEq

/-- The mutable loop state of AgentBrain.run: the accumulated LLM context,
the done flag, the step counter, and the recorded actions and history. -/
structure BrainState where
  context : String
  done : Bool
  step : Nat
  actions_taken : List String
  history : List (Nat × BrainAction × ToolResult)
deriving Repr, DecidableEq

/-- _safe_json (main.py): serialize and cap at 20000 characters, dump
abstracted. -/
def _safe_json {α : Type} (dump : α → String) (x : α) : String :=
  String.mk ((dump x).data.take 20000)

/-- The tool-execution branch of AgentBrain.run: run the chosen tool and say
whether this step set done. shellRun, fsWrite, fsRead abstract the tool
executors. -/
def execTool (shellRun : String → ToolResult)
    (fsWrite : String → String → ToolResult) (fsRead : String → ToolResult)
    (a : BrainAction) : Bool × ToolResult :=
  match a.tool with
  | some "shell" => (false, shellRun (a.args.command.getD ""))
  | some "fs_write" =>
    (false, fsWrite (a.args.path.getD "") (a.args.content.getD ""))
  | some "fs_read" => (false, fsRead (a.args.path.getD ""))
  | some "done" =>
    (true, { ok := some true, done := some true,
             reason := some (a.args.reason.getD "") })
  | _ => (false, { ok := some false, error := some "unknown tool" })

/-- The context update at the end of one AgentBrain.run iteration: append the
tool result, plus the error note when a shell command exits non-zero. -/
def updateContext (dumpR : ToolResult → String) (ctx : String)
    (tool : Option String) (result : ToolResult) : String :=
  let c := ctx ++ "TOOL RESULT: " ++ _safe_json dumpR result ++ "\n"
  if tool = some "shell" &&
      !(result.exit_code = some 0 || result.exit_code = none) then
    c ++ "ERROR: Command failed with exit " ++
      toString (result.exit_code.getD 0) ++ "\n"
  else c

/-- The while loop of AgentBrain.run: while not done and step below
max_steps, ask the model, execute the tool, record the action and result.
The fuel argument is max_steps minus the steps already taken, so calling with
fuel max_steps from step 0 is exactly the source loop. ask abstracts
_ask_llm. -/
def runSteps (ask : String → BrainAction) (shellRun : String → ToolResult)
    (fsWrite : String → String → ToolResult) (fsRead : String → ToolResult)
    (dumpA : BrainAction → String) (dumpR : ToolResult → String) :
    Nat → BrainState → BrainState
  | 0, st => st
  | fuel + 1, st =>
    if st.done then st
    else
      let step := st.step + 1
      let action := ask st.context
      let er := execTool shellRun fsWrite fsRead action
      let st2 : BrainState :=
        { context := updateContext dumpR st.context action.tool er.2,
          done := st.done || er.1,
          step := step,
          actions_taken := st.actions_taken ++ [_safe_json dumpA action],
          history := st.history ++ [(step, action, er.2)] }
      runSteps ask shellRun fsWrite fsRead dumpA dumpR fuel st2

/-- The mapping returned by AgentBrain._finalize, after report writing and
archiving (both abstracted): it unconditionally reports success. -/
structure FinalResult where
  success : Bool
  artifact_filename : String
  report_path : String
deriving Repr, DecidableEq

/-- AgentBrain._finalize (main.py): write the report, archive the app
directory when one is found, and return the success mapping. appDirName
abstracts _find_app_dir. -/
def finalize (appDirName : Option String) (report_path : String)
    (st : BrainState) : FinalResult :=
  { success := true,
    artifact_filename :=
      (match appDirName with
       | some d => d ++ ".zip"
       | none => "artifact.zip"),
    report_path := report_path }

/-- The initial loop state of AgentBrain.run for a task. -/
def initState (task : String) : BrainState :=
  { context := SYSTEM_PROMPT ++ "\nUSER: " ++ task ++ "\n",
    done := false, step := 0, actions_taken := [], history := [] }

/-- AgentBrain.run (main.py): the bounded decide-execute-record loop followed
by _finalize. -/
def run (max_steps : Nat) (ask : String → BrainAction)
    (shellRun : String → ToolResult) (fsWrite : String → String → ToolResult)
    (fsRead : String → ToolResult) (dumpA : BrainAction → String)
    (dumpR : ToolResult → String) (appDirName : Option String)
    (report_path : String) (task : String) : FinalResult :=
  finalize appDirName report_path
    (runSteps ask shellRun fsWrite fsRead dumpA dumpR max_steps (initState task))

end AgentBrain

/-- C2 counterexample. -/
theorem claim_C2_counterexample :
    GraphAgent.decideActionPayload
        { task := "t",
          messages := [{ role := "user", content := "t" },
                       { role := "assistant", content := "x" }] } ≠
      GraphAgent.systemMsg ::
        ({ task := "t",
           messages := [{ role := "user", content := "t" },
                        { role := "assistant", content := "x" }] } : State).messages := by
  intro h
  have hl := congrArg List.length h
  simp [GraphAgent.decideActionPayload] at hl

/-- C2 amended. -/
theorem claim_C2_decide_action_payloads :
    ∀ (model : List Msg → RouterAction) (s : State),
      GraphAgent.decide_action model s =
        { s with pending_action := some (model
            [GraphAgent.systemMsg, { role := "human", content := s.task }]) } ∧
      GraphAgent.nodesDecideAction model s =
        { s with pending_action := some (model
            (GraphAgent.systemMsg :: s.messages)) } ∧
      (GraphAgent.decideActionPayload s = GraphAgent.nodesDecidePayload s ↔
        s.messages = [{ role := "human", content := s.task }]) := by
  intro model s
  refine ⟨rfl, rfl, ?_⟩
  simp [GraphAgent.decideActionPayload, GraphAgent.nodesDecidePayload]
  constructor
  · intro h; exact h.symm
  · intro h; exact h.symm

/-- C9. -/
theorem claim_C9_record_result :
    ∀ (dumpA : RouterAction → String) (dumpR : ToolResult → String)
      (s : State) (a : RouterAction),
      s.pending_action = some a →
      (GraphAgent.record_result dumpA dumpR s).messages =
        s.messages ++
          [{ role := "assistant",
             content := GraphAgent.safe_json_fragment dumpA a },
           { role := "tool",
             content := GraphAgent.safe_json_fragment dumpR
               (s.tool_result.getD {}) }] ∧
      (GraphAgent.record_result dumpA dumpR s).messages.length =
        s.messages.length + 2 ∧
      (GraphAgent.record_result dumpA dumpR s).actions_taken =
        s.actions_taken ++ [GraphAgent.safe_json_fragment dumpA a] ∧
      (GraphAgent.record_result dumpA dumpR s).actions_taken.length =
        s.actions_taken.length + 1 ∧
      (GraphAgent.record_result dumpA dumpR s).pending_action = none ∧
      (GraphAgent.record_result dumpA dumpR s).tool_result = none ∧
      ((a.tool = RTool.done ∨
          GraphAgent.truthyDone (s.tool_result.getD {}) = true) →
        (GraphAgent.record_result dumpA dumpR s).done = true ∧
        (GraphAgent.record_result dumpA dumpR s).reason =
          (s.tool_result.getD {}).reason) ∧
      (¬(a.tool = RTool.done ∨
          GraphAgent.truthyDone (s.tool_result.getD {}) = true) →
        (GraphAgent.record_result dumpA dumpR s).done = s.done ∧
        (GraphAgent.record_result dumpA dumpR s).reason = s.reason) := by
  intro dumpA dumpR s a h
  by_cases hc : (a.tool = RTool.done ∨
      GraphAgent.truthyDone (s.tool_result.getD {}) = true)
  · have hb : (a.tool = RTool.done ||
        GraphAgent.truthyDone (s.tool_result.getD {})) = true := by
      rcases hc with hc | hc <;> simp [hc]
    simp [GraphAgent.record_result, h, hb, hc]
  · have hb : (a.tool = RTool.done ||
        GraphAgent.truthyDone (s.tool_result.getD {})) = false := by
      push_neg at hc
      simp [hc.1, hc.2]
    simp [GraphAgent.record_result, h, hb, hc]

/-- C9 witness. -/
theorem claim_C9_witness :
    (GraphAgent.record_result (fun _ => "a") (fun _ => "r")
      { task := "t",
        pending_action := some { tool := RTool.done, args := {} } }).messages.length =
      ({ task := "t",
         pending_action := some { tool := RTool.done, args := {} } } : State).messages.length + 2 :=
  (claim_C9_record_result (fun _ => "a") (fun _ => "r") _
    { tool := RTool.done, args := {} } rfl).2.1

/-- C6. -/
theorem claim_C6_shell_deny :
    (∀ (cmd : String) (run1 run2 : String → ToolResult),
      Deny.is_risky_command cmd = true →
      Deny.shell_tool run1 cmd = Deny.blockedResult cmd ∧
      Deny.shell_tool run1 cmd = Deny.shell_tool run2 cmd) ∧
    (∀ (cmd : String) (run : String → ToolResult),
      Deny.is_risky_command cmd = false →
      Deny.shell_tool run cmd = run cmd) ∧
    Deny.is_risky_command "rm -rf /" = true ∧
    (Deny.blockedResult "rm -rf /").ok = some false ∧
    (Deny.blockedResult "rm -rf /").exit_code = some 126 ∧
    (Deny.blockedResult "rm -rf /").stderr =
      some "blocked by policy: risky command" := by
  refine ⟨?_, ?_, by decide, rfl, rfl, rfl⟩
  · intro cmd r1 r2 h
    constructor <;> simp [Deny.shell_tool, h]
  · intro cmd r h
    simp [Deny.shell_tool, h]

/-- C6 witness. -/
theorem claim_C6_witness :
    Deny.shell_tool (fun c => { ok := some true, exit_code := some 0 })
        "rm -rf /" = Deny.blockedResult "rm -rf /" :=
  (claim_C6_shell_deny.1 "rm -rf /" (fun c => { ok := some true, exit_code := some 0 })
    (fun _ => {}) (by decide)).1

/-- Helper: a decision whose tool is not the done tool never sets the done
flag. -/
theorem execTool_fst_of_ne_done (shellRun : String → ToolResult)
    (fsWrite : String → String → ToolResult) (fsRead : String → ToolResult)
    (a : AgentBrain.BrainAction) (h : a.tool ≠ some "done") :
    (AgentBrain.execTool shellRun fsWrite fsRead a).1 = false := by
  unfold AgentBrain.execTool
  split <;> simp_all

/-- Helper: with a model that never chooses done, the AgentBrain loop runs
its full fuel and never sets done. -/
theorem runSteps_no_done (ask : String → AgentBrain.BrainAction)
    (shellRun : String → ToolResult) (fsWrite : String → String → ToolResult)
    (fsRead : String → ToolResult) (dumpA : AgentBrain.BrainAction → String)
    (dumpR : ToolResult → String)
    (h : ∀ ctx, (ask ctx).tool ≠ some "done") :
    ∀ (fuel : Nat) (st : AgentBrain.BrainState), st.done = false →
      (AgentBrain.runSteps ask shellRun fsWrite fsRead dumpA dumpR fuel st).done
        = false ∧
      (AgentBrain.runSteps ask shellRun fsWrite fsRead dumpA dumpR fuel st).step
        = st.step + fuel := by
  intro fuel
  induction fuel with
  | zero =>
    intro st h0
    simp [AgentBrain.runSteps, h0]
  | succ n ih =>
    intro st h0
    have het := execTool_fst_of_ne_done shellRun fsWrite fsRead (ask st.context)
      (h st.context)
    simp only [AgentBrain.runSteps, h0, Bool.false_eq_true, if_false]
    rw [het]
    simp only [Bool.or_false]
    obtain ⟨hd, hs⟩ := ih
      { context := AgentBrain.updateContext dumpR st.context (ask st.context).tool
          (AgentBrain.execTool shellRun fsWrite fsRead (ask st.context)).2,
        done := false,
        step := st.step + 1,
        actions_taken := st.actions_taken ++
          [AgentBrain._safe_json dumpA (ask st.context)],
        history := st.history ++ [(st.step + 1, ask st.context,
          (AgentBrain.execTool shellRun fsWrite fsRead (ask st.context)).2)] }
      rfl
    refine ⟨hd, ?_⟩
    rw [hs]
    show st.step + 1 + n = st.step + (n + 1)
    omega

/-- C1. -/
theorem claim_C1_step_ceiling_reported_as_success :
    ∀ (max_steps : Nat) (ask : String → AgentBrain.BrainAction)
      (shellRun : String → ToolResult) (fsWrite : String → String → ToolResult)
      (fsRead : String → ToolResult) (dumpA : AgentBrain.BrainAction → String)
      (dumpR : ToolResult → String) (appDirName : Option String)
      (report_path task : String),
      (∀ ctx, (ask ctx).tool ≠ some "done") →
      (AgentBrain.runSteps ask shellRun fsWrite fsRead dumpA dumpR max_steps
          (AgentBrain.initState task)).done = false ∧
      (AgentBrain.runSteps ask shellRun fsWrite fsRead dumpA dumpR max_steps
          (AgentBrain.initState task)).step = max_steps ∧
      AgentBrain.run max_steps ask shellRun fsWrite fsRead dumpA dumpR
          appDirName report_path task =
        { success := true,
          artifact_filename := (match appDirName with
            | some d => d ++ ".zip"
            | none => "artifact.zip"),
          report_path := report_path } := by
  intro max_steps ask shellRun fsWrite fsRead dumpA dumpR appDirName rp task h
  obtain ⟨hd, hs⟩ := runSteps_no_done ask shellRun fsWrite fsRead dumpA dumpR h
    max_steps (AgentBrain.initState task) rfl
  refine ⟨hd, ?_, rfl⟩
  rw [hs]
  show 0 + max_steps = max_steps
  omega

/-- C1 witness. -/
theorem claim_C1_witness :
    (AgentBrain.runSteps
        (fun _ => { tool := some "shell", args := { command := some "echo hi" } })
        (fun _ => { ok := some true, exit_code := some 0 })
        (fun _ _ => { ok := some true }) (fun _ => { ok := some true })
        (fun _ => "a") (fun _ => "r") 3
        (AgentBrain.initState "build an app")).step = 3 :=
  (claim_C1_step_ceiling_reported_as_success 3
    (fun _ => { tool := some "shell", args := { command := some "echo hi" } })
    (fun _ => { ok := some true, exit_code := some 0 })
    (fun _ _ => { ok := some true }) (fun _ => { ok := some true })
    (fun _ => "a") (fun _ => "r") none "/job/report.md" "build an app"
    (fun _ => by simp)).2.1

/-- Helper: backends before a succeeding one that all fail with the rate-limit
error are skipped, and the succeeding answer is returned. -/
theorem failoverAux_ok_after_rl {α β : Type} (p : α) (e : String) :
    ∀ (bs1 : List (α → LlmWrappers.CallResult β))
      (b : α → LlmWrappers.CallResult β)
      (bs2 : List (α → LlmWrappers.CallResult β)) (v : β) (last : Option String),
      (∀ c ∈ bs1, ∃ m, c p = LlmWrappers.CallResult.rateLimitExceeded m) →
      b p = LlmWrappers.CallResult.ok v →
      LlmWrappers.failoverAux p e (bs1 ++ b :: bs2) last =
        LlmWrappers.CallResult.ok v := by
  intro bs1
  induction bs1 with
  | nil =>
    intro b bs2 v last _ hb
    simp [LlmWrappers.failoverAux, hb]
  | cons c bs ih =>
    intro b bs2 v last hall hb
    obtain ⟨m, hm⟩ := hall c (List.mem_cons_self c bs)
    simp only [List.cons_append, LlmWrappers.failoverAux, hm]
    exact ih b bs2 v (some m) (fun d hd => hall d (List.mem_cons_of_mem c hd)) hb

/-- Helper: a non-rate-limit backend failure propagates past any earlier
rate-limited backends, without consulting later backends. -/
theorem failoverAux_err_after_rl {α β : Type} (p : α) (e : String) :
    ∀ (bs1 : List (α → LlmWrappers.CallResult β))
      (b : α → LlmWrappers.CallResult β)
      (bs2 : List (α → LlmWrappers.CallResult β)) (m : String) (last : Option String),
      (∀ c ∈ bs1, ∃ mc, c p = LlmWrappers.CallResult.rateLimitExceeded mc) →
      b p = LlmWrappers.CallResult.err m →
      LlmWrappers.failoverAux p e (bs1 ++ b :: bs2) last =
        LlmWrappers.CallResult.err m := by
  intro bs1
  induction bs1 with
  | nil =>
    intro b bs2 m last _ hb
    simp [LlmWrappers.failoverAux, hb]
  | cons c bs ih =>
    intro b bs2 m last hall hb
    obtain ⟨mc, hm⟩ := hall c (List.mem_cons_self c bs)
    simp only [List.cons_append, LlmWrappers.failoverAux, hm]
    exact ih b bs2 m (some mc) (fun d hd => hall d (List.mem_cons_of_mem c hd)) hb

/-- Helper: when every backend fails with the rate-limit error, the loop ends
with the error of the last backend. -/
theorem failoverAux_all_rl {α β : Type} (p : α) (e : String) :
    ∀ (bs : List (α → LlmWrappers.CallResult β))
      (b : α → LlmWrappers.CallResult β) (m : String) (last : Option String),
      (∀ c ∈ bs, ∃ mc, c p = LlmWrappers.CallResult.rateLimitExceeded mc) →
      b p = LlmWrappers.CallResult.rateLimitExceeded m →
      LlmWrappers.failoverAux p e (bs ++ [b]) last =
        LlmWrappers.CallResult.rateLimitExceeded m := by
  intro bs
  induction bs with
  | nil =>
    intro b m last _ hb
    simp [LlmWrappers.failoverAux, hb]
  | cons c rest ih =>
    intro b m last hall hb
    obtain ⟨mc, hm⟩ := hall c (List.mem_cons_self c rest)
    simp only [List.cons_append, LlmWrappers.failoverAux, hm]
    exact ih b m (some mc) (fun d hd => hall d (List.mem_cons_of_mem c hd)) hb

/-- C4. -/
theorem claim_C4_failover_order :
    (∀ (α β : Type) (bs1 bs2 : List (α → LlmWrappers.CallResult β))
        (b : α → LlmWrappers.CallResult β) (p : α) (v : β),
      (∀ c ∈ bs1, ∃ m, c p = LlmWrappers.CallResult.rateLimitExceeded m) →
      b p = LlmWrappers.CallResult.ok v →
      LlmWrappers.failoverInvoke (bs1 ++ b :: bs2) p =
        LlmWrappers.CallResult.ok v) ∧
    (∀ (α β : Type) (bs1 bs2 : List (α → LlmWrappers.CallResult β))
        (b : α → LlmWrappers.CallResult β) (p : α) (m : String),
      (∀ c ∈ bs1, ∃ mc, c p = LlmWrappers.CallResult.rateLimitExceeded mc) →
      b p = LlmWrappers.CallResult.err m →
      LlmWrappers.failoverInvoke (bs1 ++ b :: bs2) p =
        LlmWrappers.CallResult.err m) ∧
    (∀ (α β : Type) (bs : List (α → LlmWrappers.CallResult β))
        (b : α → LlmWrappers.CallResult β) (p : α) (m : String),
      (∀ c ∈ bs, ∃ mc, c p = LlmWrappers.CallResult.rateLimitExceeded mc) →
      b p = LlmWrappers.CallResult.rateLimitExceeded m →
      LlmWrappers.failoverInvoke (bs ++ [b]) p =
        LlmWrappers.CallResult.rateLimitExceeded m) ∧
    (∀ (α β : Type) (p : α),
      LlmWrappers.failoverInvoke ([] : List (α → LlmWrappers.CallResult β)) p =
        LlmWrappers.CallResult.err "No backends configured") ∧
    (∀ (α β : Type) (bs1 bs2 : List (α → LlmWrappers.CallResult β))
        (b : α → LlmWrappers.CallResult β) (p : α) (v : β),
      (∀ c ∈ bs1, ∃ m, c p = LlmWrappers.CallResult.rateLimitExceeded m) →
      b p = LlmWrappers.CallResult.ok v →
      LlmWrappers.structuredFailoverInvoke (bs1 ++ b :: bs2) p =
        LlmWrappers.CallResult.ok v) ∧
    (∀ (α β : Type) (bs1 bs2 : List (α → LlmWrappers.CallResult β))
        (b : α → LlmWrappers.CallResult β) (p : α) (m : String),
      (∀ c ∈ bs1, ∃ mc, c p = LlmWrappers.CallResult.rateLimitExceeded mc) →
      b p = LlmWrappers.CallResult.err m →
      LlmWrappers.structuredFailoverInvoke (bs1 ++ b :: bs2) p =
        LlmWrappers.CallResult.err m) ∧
    (∀ (α β : Type) (bs : List (α → LlmWrappers.CallResult β))
        (b : α → LlmWrappers.CallResult β) (p : α) (m : String),
      (∀ c ∈ bs, ∃ mc, c p = LlmWrappers.CallResult.rateLimitExceeded mc) →
      b p = LlmWrappers.CallResult.rateLimitExceeded m →
      LlmWrappers.structuredFailoverInvoke (bs ++ [b]) p =
        LlmWrappers.CallResult.rateLimitExceeded m) ∧
    (∀ (α β : Type) (p : α),
      LlmWrappers.structuredFailoverInvoke
          ([] : List (α → LlmWrappers.CallResult β)) p =
        LlmWrappers.CallResult.err "No structured backends available") := by
  refine ⟨?_, ?_, ?_, ?_, ?_, ?_, ?_, ?_⟩
  · intro α β bs1 bs2 b p v hall hb
    exact failoverAux_ok_after_rl p _ bs1 b bs2 v none hall hb
  · intro α β bs1 bs2 b p m hall hb
    exact failoverAux_err_after_rl p _ bs1 b bs2 m none hall hb
  · intro α β bs b p m hall hb
    exact failoverAux_all_rl p _ bs b m none hall hb
  · intro α β p
    rfl
  · intro α β bs1 bs2 b p v hall hb
    exact failoverAux_ok_after_rl p _ bs1 b bs2 v none hall hb
  · intro α β bs1 bs2 b p m hall hb
    exact failoverAux_err_after_rl p _ bs1 b bs2 m none hall hb
  · intro α β bs b p m hall hb
    exact failoverAux_all_rl p _ bs b m none hall hb
  · intro α β p
    rfl

/-- C4 witness. -/
theorem claim_C4_witness :
    LlmWrappers.failoverInvoke
        ([fun _ : Unit => LlmWrappers.CallResult.rateLimitExceeded "backend A exhausted"] ++
          (fun _ : Unit => LlmWrappers.CallResult.ok (7 : Nat)) :: []) () =
      LlmWrappers.CallResult.ok 7 :=
  claim_C4_failover_order.1 Unit Nat
    [fun _ => LlmWrappers.CallResult.rateLimitExceeded "backend A exhausted"]
    [] (fun _ => LlmWrappers.CallResult.ok 7) () 7
    (by
      intro c hc
      rw [List.mem_singleton] at hc
      subst hc
      exact ⟨"backend A exhausted", rfl⟩)
    rfl

/-- C5. -/
theorem claim_C5_path_confinement :
    (∀ base p : String, FsTool.strPre ['/'] p.data = false →
      FsTool.resolvePath base p =
        String.mk (FsTool.renderSegs (FsTool.canon []
          (FsTool.segsOf base.data ++ FsTool.segsOf p.data)))) ∧
    (∀ base p : String, FsTool.strPre ['/'] p.data = true →
      FsTool.resolvePath base p =
        String.mk (FsTool.renderSegs (FsTool.canon [] (FsTool.segsOf p.data)))) ∧
    (∀ base root p : String,
      FsTool.strPre root.data (FsTool.resolvePath base p).data = false →
      (∀ fsys, FsTool.read fsys base root p =
        { ok := some false,
          error := some "path not allowed outside allowed_root",
          path := some p }) ∧
      (∀ content, FsTool.write base root p content =
        ({ ok := some false,
           error := some "path not allowed outside allowed_root",
           path := some p }, none))) ∧
    (∀ fsys, FsTool.read fsys "/job/workdir" "/job" "../../etc/passwd" =
      { ok := some false,
        error := some "path not allowed outside allowed_root",
        path := some "../../etc/passwd" }) ∧
    (∀ text : String, FsTool.read
        (fun q => if q = "/job/workdir/logs/a.txt" then Except.ok text
          else Except.error "missing")
        "/job/workdir" "/job" "logs/a.txt" =
      { ok := some true, path := some "/job/workdir/logs/a.txt",
        content := some (FsTool.pyTail 12000 text) }) := by
  refine ⟨?_, ?_, ?_, ?_, ?_⟩
  · intro base p h
    simp [FsTool.resolvePath, FsTool.resolveChars, h]
  · intro base p h
    simp [FsTool.resolvePath, FsTool.resolveChars, h]
  · intro base root p h
    have hres : FsTool.resolve base root p =
        Except.error "path not allowed outside allowed_root" := by
      simp [FsTool.resolve, h]
    constructor
    · intro fsys
      simp [FsTool.read, hres]
    · intro content
      simp [FsTool.write, hres]
  · intro fsys
    have hres : FsTool.resolve "/job/workdir" "/job" "../../etc/passwd" =
        Except.error "path not allowed outside allowed_root" := rfl
    simp [FsTool.read, hres]
  · intro text
    have hres : FsTool.resolve "/job/workdir" "/job" "logs/a.txt" =
        Except.ok "/job/workdir/logs/a.txt" := rfl
    simp [FsTool.read, hres]

/-- C5 witness. -/
theorem claim_C5_witness :
    FsTool.read (fun _ => Except.error "io") "/job/workdir" "/job"
        "../../etc/passwd" =
      { ok := some false,
        error := some "path not allowed outside allowed_root",
        path := some "../../etc/passwd" } :=
  ((claim_C5_path_confinement.2.2.1 "/job/workdir" "/job" "../../etc/passwd"
    (by decide)).1) (fun _ => Except.error "io")

/-- C10. -/
theorem claim_C10_prefix_check_is_string_prefix :
    (∀ base root p : String,
      FsTool.strPre root.data (FsTool.resolvePath base p).data = true →
      FsTool.resolve base root p = Except.ok (FsTool.resolvePath base p)) ∧
    FsTool.resolve "/job/workdir" "/job" "/jobX/secret" =
      Except.ok "/jobX/secret" ∧
    FsTool.strPre ("/job" ++ "/").data "/jobX/secret".data = false ∧
    (FsTool.read
        (fun q => if q = "/jobX/secret" then Except.ok "s3cret"
          else Except.error "missing")
        "/job/workdir" "/job" "/jobX/secret" =
      { ok := some true, path := some "/jobX/secret",
        content := some (FsTool.pyTail 12000 "s3cret") }) ∧
    (FsTool.write "/job/workdir" "/job" "/jobX/secret" "data").2 =
      some ("/jobX/secret", "data") := by
  refine ⟨?_, rfl, by decide, ?_, rfl⟩
  · intro base root p h
    simp [FsTool.resolve, h]
  · have hres : FsTool.resolve "/job/workdir" "/job" "/jobX/secret" =
        Except.ok "/jobX/secret" := rfl
    simp [FsTool.read, hres]

/-- C10 witness. -/
theorem claim_C10_witness :
    FsTool.resolve "/job/workdir" "/job" "/jobX/secret" =
      Except.ok (FsTool.resolvePath "/job/workdir" "/jobX/secret") :=
  claim_C10_prefix_check_is_string_prefix.1 "/job/workdir" "/job" "/jobX/secret"
    (by decide)

/-- Helper: when every stamp in the window is at most 60 seconds old, the
eviction loop removes nothing. -/
theorem evictOld_eq_self (now : Nat) (ts : List Nat)
    (h : ∀ t ∈ ts, now - t ≤ 60) : LlmWrappers.evictOld now ts = ts := by
  cases ts with
  | nil => rfl
  | cons t rest =>
    have ht : ¬(60 < now - t) := by
      have := h t (List.mem_cons_self t rest)
      omega
    simp [LlmWrappers.evictOld, List.dropWhile_cons, ht]

/-- Helper: on a time-ordered window the front eviction loop removes exactly
the stamps strictly older than 60 seconds. -/
theorem evictOld_sorted_eq_filter (now : Nat) :
    ∀ ts : List Nat, List.Sorted (· ≤ ·) ts →
      LlmWrappers.evictOld now ts =
        ts.filter (fun t => now - t ≤ 60) := by
  intro ts
  induction ts with
  | nil => intro _; rfl
  | cons t rest ih =>
    intro h
    rw [List.sorted_cons] at h
    obtain ⟨hall, hrest⟩ := h
    by_cases hc : 60 < now - t
    · have hnotkeep : ¬(now - t ≤ 60) := by omega
      have h1 : LlmWrappers.evictOld now (t :: rest) =
          LlmWrappers.evictOld now rest := by
        simp [LlmWrappers.evictOld, List.dropWhile_cons, hc]
      have h2 : (t :: rest).filter (fun t => now - t ≤ 60) =
          rest.filter (fun t => now - t ≤ 60) := by
        rw [List.filter_cons, if_neg (by simpa using hnotkeep)]
      rw [h1, h2, ih hrest]
    · have hkeep : now - t ≤ 60 := by omega
      have hresteq : rest.filter (fun t => now - t ≤ 60) = rest := by
        rw [List.filter_eq_self]
        intro u hu
        have := hall u hu
        simp only [decide_eq_true_eq]
        omega
      have h1 : LlmWrappers.evictOld now (t :: rest) = t :: rest := by
        simp [LlmWrappers.evictOld, List.dropWhile_cons, hc]
      have h2 : (t :: rest).filter (fun t => now - t ≤ 60) =
          t :: rest.filter (fun t => now - t ≤ 60) := by
        rw [List.filter_cons, if_pos (by simpa using hkeep)]
      rw [h1, h2, hresteq]

/-- Helper: an invocation below the ceiling is admitted and appends the call
time to the window. -/
theorem stepWindow_accept (rpm now : Nat) (ts : List Nat)
    (h : (LlmWrappers.evictOld now ts).length < rpm) :
    LlmWrappers.stepWindow rpm now ts =
      (true, LlmWrappers.evictOld now ts ++ [now]) := by
  simp [LlmWrappers.stepWindow, LlmWrappers.rateLimitedInvoke, Nat.not_le.2 h]

/-- Helper: an invocation at or above the ceiling is rejected and records no
stamp. -/
theorem stepWindow_reject (rpm now : Nat) (ts : List Nat)
    (h : rpm ≤ (LlmWrappers.evictOld now ts).length) :
    LlmWrappers.stepWindow rpm now ts = (false, LlmWrappers.evictOld now ts) := by
  simp [LlmWrappers.stepWindow, LlmWrappers.rateLimitedInvoke, h]

/-- Helper: a call trace splits at list append. -/
theorem runCalls_append (rpm : Nat) (a : List Nat) :
    ∀ (b : List Nat) (w : List Nat),
      LlmWrappers.runCalls rpm (a ++ b) w =
        ((LlmWrappers.runCalls rpm a w).1 ++
          (LlmWrappers.runCalls rpm b (LlmWrappers.runCalls rpm a w).2).1,
         (LlmWrappers.runCalls rpm b (LlmWrappers.runCalls rpm a w).2).2) := by
  induction a with
  | nil => intro b w; simp [LlmWrappers.runCalls]
  | cons t rest ih =>
    intro b w
    simp [LlmWrappers.runCalls, ih]

/-- Helper: while the window still has room for every remaining call and all
stamps lie within one 60-second span, every call is admitted and ends up in
the window in order. -/
theorem runCalls_accept_all (rpm : Nat) :
    ∀ (rest pre : List Nat),
      (∀ t ∈ pre ++ rest, ∀ u ∈ pre ++ rest, u - t ≤ 60) →
      pre.length + rest.length ≤ rpm →
      LlmWrappers.runCalls rpm rest pre =
        (List.replicate rest.length true, pre ++ rest) := by
  intro rest
  induction rest with
  | nil => intro pre _ _; simp [LlmWrappers.runCalls]
  | cons u rest2 ih =>
    intro pre hspan hlen
    have humem : u ∈ pre ++ u :: rest2 := by simp
    have hev : LlmWrappers.evictOld u pre = pre := by
      apply evictOld_eq_self
      intro t ht
      exact hspan t (List.mem_append_left _ ht) u humem
    have hlt : (LlmWrappers.evictOld u pre).length < rpm := by
      rw [hev]
      simp at hlen
      omega
    have hstep := stepWindow_accept rpm u pre hlt
    rw [hev] at hstep
    have hspan2 : ∀ t ∈ (pre ++ [u]) ++ rest2, ∀ v ∈ (pre ++ [u]) ++ rest2,
        v - t ≤ 60 := by
      intro t ht v hv
      rw [List.append_assoc] at ht hv
      exact hspan t ht v hv
    have hlen2 : (pre ++ [u]).length + rest2.length ≤ rpm := by
      simp at hlen ⊢
      omega
    have hrec := ih (pre ++ [u]) hspan2 hlen2
    simp [LlmWrappers.runCalls, hstep, hrec, List.replicate_succ,
      List.append_assoc]

/-- C3. -/
theorem claim_C3_rate_limiter :
    (∀ (now : Nat) (ts : List Nat), List.Sorted (· ≤ ·) ts →
      LlmWrappers.evictOld now ts = ts.filter (fun t => now - t ≤ 60)) ∧
    (∀ (α β : Type) (impl : α → β) (rpm now : Nat) (ts : List Nat) (p : α),
      rpm ≤ (LlmWrappers.evictOld now ts).length →
      LlmWrappers.rateLimitedInvoke impl rpm ts now p =
        (LlmWrappers.CallResult.rateLimitExceeded "exceeded rpm",
          LlmWrappers.evictOld now ts)) ∧
    (∀ (α β : Type) (impl : α → β) (rpm now : Nat) (ts : List Nat) (p : α),
      (LlmWrappers.evictOld now ts).length < rpm →
      LlmWrappers.rateLimitedInvoke impl rpm ts now p =
        (LlmWrappers.CallResult.ok (impl p),
          LlmWrappers.evictOld now ts ++ [now])) ∧
    (∀ (N : Nat) (times : List Nat) (tlast : Nat),
      times.length = N →
      List.Sorted (· ≤ ·) (times ++ [tlast]) →
      (∀ t ∈ times ++ [tlast], tlast - t ≤ 60) →
      (LlmWrappers.runCalls N (times ++ [tlast]) []).1 =
        List.replicate N true ++ [false]) ∧
    (∀ (N now t0 : Nat) (rest : List Nat),
      (t0 :: rest).length ≤ N → 60 < now - t0 →
      (LlmWrappers.stepWindow N now (t0 :: rest)).1 = true) ∧
    (∀ (α β γ : Type) (impl : α → β) (smodel : α → γ) (rpm now : Nat)
        (ts : List Nat) (p : α),
      (LlmWrappers.structuredRateLimitedInvoke smodel rpm ts now p).2 =
        (LlmWrappers.rateLimitedInvoke impl rpm ts now p).2 ∧
      (LlmWrappers.structuredRateLimitedInvoke smodel rpm ts now p).1.isRateLimited =
        (LlmWrappers.rateLimitedInvoke impl rpm ts now p).1.isRateLimited) := by
  refine ⟨evictOld_sorted_eq_filter, ?_, ?_, ?_, ?_, ?_⟩
  · intro α β impl rpm now ts p h
    simp [LlmWrappers.rateLimitedInvoke, h]
  · intro α β impl rpm now ts p h
    simp [LlmWrappers.rateLimitedInvoke, Nat.not_le.2 h]
  · intro N times tlast hlen hsort hspan
    have hle_last : ∀ t ∈ times, t ≤ tlast := by
      have hp := (List.pairwise_append.mp hsort).2.2
      intro t ht
      exact hp t ht tlast (List.mem_singleton_self tlast)
    have hpair : ∀ t ∈ ([] : List Nat) ++ times, ∀ u ∈ ([] : List Nat) ++ times,
        u - t ≤ 60 := by
      intro t ht u hu
      rw [List.nil_append] at ht hu
      have h1 : tlast - t ≤ 60 := hspan t (List.mem_append_left _ ht)
      have h2 : u ≤ tlast := hle_last u hu
      omega
    have haccept := runCalls_accept_all N times [] hpair (by simp [hlen])
    have hev : LlmWrappers.evictOld tlast times = times :=
      evictOld_eq_self tlast times
        (fun t ht => hspan t (List.mem_append_left _ ht))
    have hrej := stepWindow_reject N tlast times (by rw [hev, hlen])
    rw [hev] at hrej
    have hsingle : LlmWrappers.runCalls N [tlast] times = ([false], times) := by
      simp [LlmWrappers.runCalls, hrej]
    rw [runCalls_append]
    rw [haccept]
    simp only [List.nil_append]
    rw [hsingle, hlen]
  · intro N now t0 rest hlen h60
    have h1 : LlmWrappers.evictOld now (t0 :: rest) =
        LlmWrappers.evictOld now rest := by
      simp [LlmWrappers.evictOld, List.dropWhile_cons, h60]
    have h2 : (LlmWrappers.evictOld now rest).length ≤ rest.length :=
      ((List.dropWhile_suffix _).sublist).length_le
    have hlt : (LlmWrappers.evictOld now (t0 :: rest)).length < N := by
      rw [h1]
      simp at hlen
      omega
    rw [stepWindow_accept N now (t0 :: rest) hlt]
  · intro α β γ impl smodel rpm now ts p
    by_cases h : rpm ≤ (LlmWrappers.evictOld now ts).length
    all_goals simp only [LlmWrappers.evictOld] at h
    · constructor <;>
        simp [LlmWrappers.structuredRateLimitedInvoke,
          LlmWrappers.rateLimitedInvoke, LlmWrappers.evictOld,
          LlmWrappers.CallResult.isRateLimited, h]
    · constructor <;>
        simp [LlmWrappers.structuredRateLimitedInvoke,
          LlmWrappers.rateLimitedInvoke, LlmWrappers.evictOld,
          LlmWrappers.CallResult.isRateLimited, h]

/-- C3 witness. -/
theorem claim_C3_witness :
    (LlmWrappers.runCalls 2 ([0, 1] ++ [2]) []).1 =
      List.replicate 2 true ++ [false] :=
  claim_C3_rate_limiter.2.2.2.1 2 [0, 1] 2 rfl (by decide) (by decide)

/-- C7. -/
theorem claim_C7_scaffold_verification :
    ∀ (recipes : List (String × (String → String)))
      (shellRun : String → ToolResult) (exBefore exAfter : String → Bool)
      (cwd : String) (fuel : Nat) (recipe_id : String) (name : Option String)
      (tmpl : String → String) (fname : String),
      recipes.lookup recipe_id = some tmpl →
      Scaffold.finalProjectName exBefore cwd fuel name = fname →
      ((shellRun (tmpl fname)).ok = some true →
        exAfter (Scaffold.joinPath cwd fname) = false →
        Scaffold.create recipes shellRun exBefore exAfter cwd fuel recipe_id
            name =
          { ok := some false, recipe_id := some recipe_id,
            project_name := some fname, command := some (tmpl fname),
            stdout := (shellRun (tmpl fname)).stdout,
            stderr := (shellRun (tmpl fname)).stderr,
            error :=
              some "scaffold command finished but project directory missing" }) ∧
      ((shellRun (tmpl fname)).ok ≠ some true →
        (Scaffold.create recipes shellRun exBefore exAfter cwd fuel recipe_id
            name).error = some "Scaffold command failed") ∧
      ((shellRun (tmpl fname)).ok = some true →
        exAfter (Scaffold.joinPath cwd fname) = true →
        (Scaffold.scaffold_tool recipes shellRun exBefore exAfter cwd fuel
            recipe_id name).ok = some true ∧
        (Scaffold.scaffold_tool recipes shellRun exBefore exAfter cwd fuel
            recipe_id name).done = some true ∧
        (Scaffold.scaffold_tool recipes shellRun exBefore exAfter cwd fuel
            recipe_id name).reason =
          some ("Scaffolded " ++ recipe_id ++ " project " ++ fname ++
            " successfully") ∧
        (∀ (dumpA : RouterAction → String) (dumpR : ToolResult → String)
            (s : State) (a : RouterAction),
          s.pending_action = some a →
          s.tool_result =
            some (Scaffold.scaffold_tool recipes shellRun exBefore exAfter cwd
              fuel recipe_id name) →
          (GraphAgent.record_result dumpA dumpR s).done = true ∧
          GraphAgent._should_end (GraphAgent.record_result dumpA dumpR s) =
            true)) := by
  intro recipes shellRun exBefore exAfter cwd fuel recipe_id name tmpl fname
    hl hn
  subst hn
  refine ⟨?_, ?_, ?_⟩
  · intro hok hexa
    simp [Scaffold.create, hl, hok, hexa]
  · intro hok
    simp [Scaffold.create, hl, hok]
  · intro hok hexa
    have hc : Scaffold.create recipes shellRun exBefore exAfter cwd fuel
        recipe_id name =
        { ok := some true, recipe_id := some recipe_id,
          project_name := some (Scaffold.finalProjectName exBefore cwd fuel name),
          project_path := some (Scaffold.joinPath cwd
            (Scaffold.finalProjectName exBefore cwd fuel name)),
          command := some (tmpl (Scaffold.finalProjectName exBefore cwd fuel name)),
          stdout := (shellRun (tmpl (Scaffold.finalProjectName exBefore cwd fuel name))).stdout,
          stderr := (shellRun (tmpl (Scaffold.finalProjectName exBefore cwd fuel name))).stderr,
          reason := some ("Scaffolded " ++ recipe_id ++ " project " ++
            Scaffold.finalProjectName exBefore cwd fuel name ++ " successfully") } := by
      simp [Scaffold.create, hl, hok, hexa]
    have hs : Scaffold.scaffold_tool recipes shellRun exBefore exAfter cwd fuel
        recipe_id name =
        { ok := some true, done := some true, recipe_id := some recipe_id,
          project_name := some (Scaffold.finalProjectName exBefore cwd fuel name),
          project_path := some (Scaffold.joinPath cwd
            (Scaffold.finalProjectName exBefore cwd fuel name)),
          command := some (tmpl (Scaffold.finalProjectName exBefore cwd fuel name)),
          stdout := (shellRun (tmpl (Scaffold.finalProjectName exBefore cwd fuel name))).stdout,
          stderr := (shellRun (tmpl (Scaffold.finalProjectName exBefore cwd fuel name))).stderr,
          reason := some ("Scaffolded " ++ recipe_id ++ " project " ++
            Scaffold.finalProjectName exBefore cwd fuel name ++ " successfully") } := by
      simp [Scaffold.scaffold_tool, hc, Scaffold.setdefaultDone,
        Scaffold.setdefaultReason]
    refine ⟨by rw [hs], by rw [hs], by rw [hs], ?_⟩
    intro dumpA dumpR s a hpend htr
    have hdone : GraphAgent.truthyDone (s.tool_result.getD {}) = true := by
      rw [htr, hs]
      rfl
    constructor
    · simp [GraphAgent.record_result, hpend, hdone]
    · simp [GraphAgent._should_end, GraphAgent.record_result, hpend, hdone]

/-- C7 witness. -/
theorem claim_C7_witness :
    (Scaffold.scaffold_tool [("react-vite-js", fun n => "scaffold " ++ n)]
        (fun _ => { ok := some true, exit_code := some 0, stdout := some "", stderr := some "" })
        (fun _ => false) (fun _ => true) "/job/workdir" 1 "react-vite-js"
        (some "demo")).done = some true :=
  ((claim_C7_scaffold_verification
    [("react-vite-js", fun n => "scaffold " ++ n)]
    (fun _ => { ok := some true, exit_code := some 0, stdout := some "", stderr := some "" })
    (fun _ => false) (fun _ => true) "/job/workdir" 1 "react-vite-js"
    (some "demo") (fun n => "scaffold " ++ n) "demo" rfl (by decide)).2.2
    rfl rfl).2.1

/-- Helper: every character of the first sanitizing substitution is in the
allowed class. -/
theorem mem_sanitizeStep1_allowed (s : List Char) (c : Char)
    (h : c ∈ Scaffold.sanitizeStep1 s) : Scaffold.isAllowedChar c = true := by
  rw [Scaffold.sanitizeStep1, List.mem_map] at h
  obtain ⟨a, _, ha⟩ := h
  rw [← ha]
  by_cases hall : Scaffold.isAllowedChar a = true
  · rw [if_pos hall]
    exact hall
  · rw [if_neg hall]
    decide

/-- Helper: hyphen collapsing only keeps characters of its input. -/
theorem mem_collapseHyphens (c : Char) :
    ∀ s : List Char, c ∈ Scaffold.collapseHyphens s → c ∈ s := by
  intro s
  induction s with
  | nil =>
    intro h
    simp [Scaffold.collapseHyphens] at h
  | cons a rest ih =>
    intro h
    simp only [Scaffold.collapseHyphens] at h
    by_cases ha : a = '-'
    · rw [if_pos ha] at h
      split at h
      · exact List.mem_cons_of_mem _ (ih h)
      · rcases List.mem_cons.mp h with h | h
        · subst h
          exact List.mem_cons_self _ _
        · exact List.mem_cons_of_mem _ (ih h)
    · rw [if_neg ha] at h
      rcases List.mem_cons.mp h with h | h
      · subst h
        exact List.mem_cons_self _ _
      · exact List.mem_cons_of_mem _ (ih h)

/-- Helper: stripping hyphens at both ends yields a sublist. -/
theorem stripHyphens_sublist (s : List Char) :
    (Scaffold.stripHyphens s).Sublist s := by
  have h1 : (s.dropWhile (fun c => c = '-')).Sublist s :=
    (List.dropWhile_suffix _).sublist
  have h2 : ((s.dropWhile (fun c => c = '-')).reverse.dropWhile
      (fun c => c = '-')).Sublist (s.dropWhile (fun c => c = '-')).reverse :=
    (List.dropWhile_suffix _).sublist
  have h3 := h2.reverse
  rw [List.reverse_reverse] at h3
  exact h3.trans h1

/-- Helper: the letter table preserves the allowed class. -/
theorem pyLowerChar_allowed (c : Char)
    (h : Scaffold.isAllowedChar c = true) :
    Scaffold.isAllowedChar (Scaffold.pyLowerChar c) = true := by
  unfold Scaffold.pyLowerChar
  split
  all_goals first
    | decide
    | exact h

/-- Helper: the letter table maps only the hyphen to the hyphen. -/
theorem pyLowerChar_eq_hyphen (c : Char)
    (h : Scaffold.pyLowerChar c = '-') : c = '-' := by
  revert h
  unfold Scaffold.pyLowerChar
  split
  all_goals intro h
  all_goals first
    | exact absurd h (by decide)
    | exact h

/-- Helper: hyphen collapsing leaves no two adjacent hyphens. -/
theorem collapseHyphens_chain (s : List Char) :
    (Scaffold.collapseHyphens s).Chain' (fun a b => ¬(a = '-' ∧ b = '-')) := by
  induction s with
  | nil => simp [Scaffold.collapseHyphens]
  | cons a rest ih =>
    simp only [Scaffold.collapseHyphens]
    by_cases ha : a = '-'
    · rw [if_pos ha]
      split
    
      · exact ih
      · rename_i hne
        rcases hcol : Scaffold.collapseHyphens rest with _ | ⟨d, tl⟩
        · simp
        · rw [hcol] at ih
          rw [List.chain'_cons]
          refine ⟨?_, ih⟩
          rintro ⟨-, hd⟩
          exact hne tl (by rw [hcol, hd])
    · rw [if_neg ha]
      rcases hcol : Scaffold.collapseHyphens rest with _ | ⟨d, tl⟩
      · simp
      · rw [hcol] at ih
        rw [List.chain'_cons]
        refine ⟨?_, ih⟩
        rintro ⟨h1, -⟩
        exact ha h1

/-- Helper: the no-adjacent-hyphens property is symmetric, so it survives
list reversal. -/
theorem chain_hyphen_reverse (s : List Char)
    (h : s.Chain' (fun a b => ¬(a = '-' ∧ b = '-'))) :
    s.reverse.Chain' (fun a b => ¬(a = '-' ∧ b = '-')) := by
  rw [List.chain'_reverse]
  exact h.imp (fun a b hab => fun hc => hab ⟨hc.2, hc.1⟩)

/-- Helper: stripping hyphens preserves the no-adjacent-hyphens property. -/
theorem stripHyphens_chain (s : List Char)
    (h : s.Chain' (fun a b => ¬(a = '-' ∧ b = '-'))) :
    (Scaffold.stripHyphens s).Chain' (fun a b => ¬(a = '-' ∧ b = '-')) := by
  apply chain_hyphen_reverse
  apply List.Chain'.suffix _ (List.dropWhile_suffix _)
  apply chain_hyphen_reverse
  exact List.Chain'.suffix h (List.dropWhile_suffix _)

/-- Helper: the first element surviving dropWhile falsifies the predicate. -/
theorem head_dropWhile_false {α : Type} (p : α → Bool) :
    ∀ (l : List α) (c : α), (l.dropWhile p).head? = some c → p c = false := by
  intro l
  induction l with
  | nil => intro c h; simp [List.dropWhile] at h
  | cons a rest ih =>
    intro c h
    rw [List.dropWhile_cons] at h
    by_cases hp : p a = true
    · rw [if_pos hp] at h
      exact ih c h
    · rw [if_neg hp] at h
      simp at h
      subst h
      simpa using hp

/-- Helper: dropping a prefix does not change the last element of a nonempty
result. -/
theorem getLast_dropWhile {α : Type} (p : α → Bool) (l : List α) (c : α)
    (h : (l.dropWhile p).getLast? = some c) : l.getLast? = some c := by
  obtain ⟨t, ht⟩ := List.dropWhile_suffix (l := l) p
  rw [← ht, List.getLast?_append, h]
  rfl

/-- Helper: the stripped list neither starts nor ends with a hyphen. -/
theorem stripHyphens_head (s : List Char) (c : Char)
    (h : (Scaffold.stripHyphens s).head? = some c) : c ≠ '-' := by
  rw [Scaffold.stripHyphens, List.head?_reverse] at h
  have h2 := getLast_dropWhile _ _ _ h
  rw [List.getLast?_reverse] at h2
  have := head_dropWhile_false _ _ _ h2
  simpa using this

/-- Helper: the stripped list does not end with a hyphen. -/
theorem stripHyphens_last (s : List Char) (c : Char)
    (h : (Scaffold.stripHyphens s).getLast? = some c) : c ≠ '-' := by
  rw [Scaffold.stripHyphens, List.getLast?_reverse] at h
  have := head_dropWhile_false _ _ _ h
  simpa using this

/-- C8. -/
theorem claim_C8_sanitize_and_collisions :
    (∀ name : String,
      (∀ c ∈ (Scaffold.sanitize_name name).data,
        Scaffold.isAllowedChar c = true) ∧
      (Scaffold.sanitize_name name).data.Chain'
        (fun a b => ¬(a = '-' ∧ b = '-')) ∧
      (Scaffold.sanitize_name name).data.head? ≠ some '-' ∧
      (Scaffold.sanitize_name name).data.getLast? ≠ some '-' ∧
      Scaffold.sanitize_name name ≠ "") ∧
    Scaffold.sanitize_name "My Cool App!!" = "my-cool-app" ∧
    (∀ (ex : String → Bool) (cwd name : String) (fuel : Nat),
      ex (Scaffold.joinPath cwd name) = false →
      Scaffold._resolve_name_collision ex cwd (fuel + 1) name = name) ∧
    (∀ (ex : String → Bool) (cwd name : String) (fuel : Nat),
      ex (Scaffold.joinPath cwd name) = true →
      ex (Scaffold.joinPath cwd (name ++ "-1")) = false →
      Scaffold._resolve_name_collision ex cwd (fuel + 2) name =
        name ++ "-1") ∧
    (∀ (ex : String → Bool) (cwd name : String) (fuel : Nat),
      ex (Scaffold.joinPath cwd name) = true →
      ex (Scaffold.joinPath cwd (name ++ "-1")) = true →
      ex (Scaffold.joinPath cwd (name ++ "-2")) = false →
      Scaffold._resolve_name_collision ex cwd (fuel + 3) name =
        name ++ "-2") := by
  have e1 : ∀ name : String, name ++ "-" ++ toString (1 : Nat) = name ++ "-1" := by
    intro name
    rw [String.append_assoc, show "-" ++ toString (1 : Nat) = "-1" from by decide]
  have e2 : ∀ name : String, name ++ "-" ++ toString (2 : Nat) = name ++ "-2" := by
    intro name
    rw [String.append_assoc, show "-" ++ toString (2 : Nat) = "-2" from by decide]
  refine ⟨?_, by decide, ?_, ?_, ?_⟩
  · intro name
    by_cases hemp : String.mk
        ((Scaffold.stripHyphens (Scaffold.collapseHyphens
          (Scaffold.sanitizeStep1 name.data))).map Scaffold.pyLowerChar) = ""
    · have hs : Scaffold.sanitize_name name = "my-app" := by
        rw [Scaffold.sanitize_name, if_pos hemp]
      rw [hs]
      refine ⟨by decide, by simp [List.chain'_cons], by decide, by decide, by decide⟩
    · have hs : Scaffold.sanitize_name name = String.mk
          ((Scaffold.stripHyphens (Scaffold.collapseHyphens
            (Scaffold.sanitizeStep1 name.data))).map Scaffold.pyLowerChar) := by
        rw [Scaffold.sanitize_name, if_neg hemp]
      rw [hs]
      refine ⟨?_, ?_, ?_, ?_, by simpa using hemp⟩
      · intro c hc
        rw [List.mem_map] at hc
        obtain ⟨d, hd, rfl⟩ := hc
        have hd2 := (stripHyphens_sublist _).subset hd
        have hd3 := mem_collapseHyphens _ _ hd2
        exact pyLowerChar_allowed _ (mem_sanitizeStep1_allowed _ _ hd3)
      · rw [List.chain'_map]
        refine (stripHyphens_chain _ (collapseHyphens_chain _)).imp ?_
        intro a b hab hc
        exact hab ⟨pyLowerChar_eq_hyphen _ hc.1, pyLowerChar_eq_hyphen _ hc.2⟩
      · rw [List.head?_map]
        intro hcon
        rcases hu : (Scaffold.stripHyphens (Scaffold.collapseHyphens
            (Scaffold.sanitizeStep1 name.data))).head? with _ | d
        · rw [hu] at hcon
          simp at hcon
        · rw [hu] at hcon
          simp at hcon
          exact stripHyphens_head _ _ hu (pyLowerChar_eq_hyphen _ hcon)
      · rw [List.getLast?_map]
        intro hcon
        rcases hu : (Scaffold.stripHyphens (Scaffold.collapseHyphens
            (Scaffold.sanitizeStep1 name.data))).getLast? with _ | d
        · rw [hu] at hcon
          simp at hcon
        · rw [hu] at hcon
          simp at hcon
          exact stripHyphens_last _ _ hu (pyLowerChar_eq_hyphen _ hcon)
  · intro ex cwd name fuel h1
    show Scaffold.resolveCollision ex cwd (fuel + 1) 1 name name = name
    rw [Scaffold.resolveCollision, if_neg (by simp [h1])]
  · intro ex cwd name fuel h1 h2
    show Scaffold.resolveCollision ex cwd (fuel + 2) 1 name name = name ++ "-1"
    rw [show fuel + 2 = (fuel + 1) + 1 from rfl, Scaffold.resolveCollision,
      if_pos (by simp [h1]), e1, Scaffold.resolveCollision,
      if_neg (by simp [h2])]
  · intro ex cwd name fuel h1 h2 h3
    show Scaffold.resolveCollision ex cwd (fuel + 3) 1 name name = name ++ "-2"
    rw [show fuel + 3 = ((fuel + 1) + 1) + 1 from rfl, Scaffold.resolveCollision,
      if_pos (by simp [h1]), e1, Scaffold.resolveCollision,
      if_pos (by simp [h2])]
    show Scaffold.resolveCollision ex cwd (fuel + 1) 3 name
      (name ++ "-" ++ toString 2) = name ++ "-2"
    rw [e2, Scaffold.resolveCollision, if_neg (by simp [h3])]

/-- C8 witness. -/
theorem claim_C8_witness :
    Scaffold._resolve_name_collision (fun s => s = "/w/app") "/w" 2 "app" =
      "app" ++ "-1" :=
  claim_C8_sanitize_and_collisions.2.2.2.1 (fun s => s = "/w/app") "/w" "app" 0
    (by decide) (by decide)
